import Mathlib

/-!
Verification of the token-cache refresh engine (`app/token_manager.py`).

Shallow embedding notes:
- Time (`time.time()` and the TTLCache timer) is modelled as a single `Int`
  clock passed explicitly to each operation.
- `TTLCache(maxsize=100, ttl=CACHE_DURATION)` is modelled as a map from key to
  `(tokens, insertionTime)`; an entry is visible while `now - insertionTime <
  CACHE_DURATION`.  Size-based (LRU) eviction is not modelled.
- External collaborators (`os.getenv`, `json.loads`, the filesystem, HTTP
  requests via `self.session.get`, and the randomness consumed by
  `random.sample`) are modelled by an `Env` oracle, universally quantified in
  every theorem.  An unexpected orchestration failure inside
  `_refresh_tokens` is injected via `Env.critical` (the Python `try` body's
  only cache writes are its final statements, so a critical failure leaves the
  cache untouched).
- The JSON `token` field of a 200 response is modelled as an optional string;
  Python's `if token:` truthiness test is `t ≠ ""` on present fields.
- Thread completion order inside a refresh is modelled by folding over the
  credential list in order; the deduplicating append under `token_lock` is
  `addToken`.  Liveness/wall-clock properties of the thread pool are outside
  the embedding.
-/

/-- A credential record, as loaded from JSON config (`uid`/`password`). -/
structure Cred where
  uid : String
  password : String
deriving DecidableEq, Repr

/-- The constant AUTH_URLS: the fixed list of JWT generation endpoints. -/
def AUTH_URLS : List String :=
  ["https://jwtxthug.up.railway.app/token",
   "https://jwt-aditya.vercel.app/token",
   "https://hanif-swart.vercel.app/token"]

/-- The constant `CACHE_DURATION = timedelta(hours=7).seconds`. -/
def CACHE_DURATION : Int := 25200

/-- The constant `TOKEN_REFRESH_THRESHOLD = timedelta(hours=6).seconds`. -/
def TOKEN_REFRESH_THRESHOLD : Int := 21600

/-- Outcome of one `self.session.get(url, params=params)` call together with
the parse of its body: `raise` models a network/transport exception;
`resp status body` models a response with the given status code, where `body`
is the result of `response.json().get("token")` (`Except.error` models
`.json()` raising on a malformed body, `Except.ok none` a missing token
field). -/
inductive HttpOutcome where
  | raise : HttpOutcome
  | resp : Nat → Except Unit (Option String) → HttpOutcome

/-- The oracle for all external collaborators of `TokenCache`. -/
structure Env where
  /-- Models `os.getenv`. -/
  envVar : String → Option String
  /-- Models `json.loads` applied to env-var data (error = raises) -/
  parse : String → Except Unit (List Cred)
  /-- Models `os.path.exists`. -/
  fileExists : String → Bool
  /-- Models `open` plus `json.load` on a config path (error = raises) -/
  fileJson : String → Except Unit (List Cred)
  /-- one HTTP attempt for one credential against one endpoint -/
  http : Cred → String → HttpOutcome
  /-- randomness consumed by `random.sample` in one `fetch_token` call -/
  seed : Cred → Nat
  /-- injected unexpected orchestration failure inside `_refresh_tokens` -/
  critical : Bool

/-- The mutable state of a `TokenCache` object: the TTL cache (value plus
insertion time) and the `last_refresh` dict. -/
structure TCState where
  cache : String → Option (List String × Int)
  lastRefresh : String → Option Int

/-- TTL-aware lookup: `self.cache` membership/`get` semantics of `TTLCache`
(an entry inserted at `ins` is visible while `now - ins < CACHE_DURATION`). -/
def cacheLookup (st : TCState) (key : String) (now : Int) : Option (List String) :=
  match st.cache key with
  | some (v, ins) => if now - ins < CACHE_DURATION then some v else none
  | none => none

/-- Models `server_key in self.cache` (TTL-aware). -/
def cacheContains (st : TCState) (key : String) (now : Int) : Bool :=
  (cacheLookup st key now).isSome

/-- Models `self.cache[server_key] = v` at time `now`. -/
def cacheSet (st : TCState) (key : String) (v : List String) (now : Int) : TCState :=
  { st with cache := fun k => if k = key then some (v, now) else st.cache k }

/-- Models `self.last_refresh[server_key] = now`. -/
def setLastRefresh (st : TCState) (key : String) (now : Int) : TCState :=
  { st with lastRefresh := fun k => if k = key then some now else st.lastRefresh k }

/-- The path `config/<lowercased key>_config.json` built in
`_load_credentials` (the deployment-directory prefix is elided;
`server_key.lower()` is written as a character-wise map, extensionally equal
to `String.toLower`, so that the kernel can evaluate it). -/
def configPath (key : String) : String :=
  "config/" ++ String.mk (key.data.map Char.toLower) ++ "_config.json"

/-- The file-fallback branch of `_load_credentials`: if the config file
exists, parse it (a parse error raises out of the `try` body); otherwise
return `[]`. -/
def fileLoad (env : Env) (key : String) : Except Unit (List Cred) :=
  if env.fileExists (configPath key) then env.fileJson (configPath key) else Except.ok []

/-- The `try` body of `_load_credentials`: `config_data = os.getenv(
f"{server_key}_CONFIG")`; `if config_data:` is Python truthiness, so the
env-var branch is taken only when the variable is set to a non-empty string. -/
def loadCredentialsBody (env : Env) (key : String) : Except Unit (List Cred) :=
  match env.envVar (key ++ "_CONFIG") with
  | some s => if s = "" then fileLoad env key else env.parse s
  | none => fileLoad env key

/-- Models `_load_credentials`: the broad `except` turns any failure into `[]`. -/
def loadCredentials (env : Env) (key : String) : List Cred :=
  match loadCredentialsBody env key with
  | Except.ok l => l
  | Except.error _ => []

/-- One iteration of the endpoint loop in `fetch_token`, successful case:
status 200, body parsed, token field present and truthy (`if token:`). -/
def fetchSucc (env : Env) (u : Cred) (url : String) : Option String :=
  match env.http u url with
  | HttpOutcome.raise => none
  | HttpOutcome.resp status body =>
    if status = 200 then
      match body with
      | Except.ok (some t) => if t = "" then none else some t
      | Except.ok none => none
      | Except.error _ => none
    else none

/-- The `for url in urls` loop of `fetch_token`: each endpoint is tried in
order; any exception or non-success advances to the next endpoint; the first
truthy token is returned. -/
def tryUrls (env : Env) (u : Cred) : List String → Option String
  | [] => none
  | url :: rest =>
    match env.http u url with
    | HttpOutcome.raise => tryUrls env u rest
    | HttpOutcome.resp status body =>
      if status = 200 then
        match body with
        | Except.ok (some t) => if t = "" then tryUrls env u rest else some t
        | Except.ok none => tryUrls env u rest
        | Except.error _ => tryUrls env u rest
      else tryUrls env u rest

/-- Models `random.sample(l, len(l))`, driven by a seed: repeatedly pick the
`seed % length`-th remaining element.  Fuel is the list length. -/
def sampleAux : Nat → Nat → List String → List String
  | 0, _, _ => []
  | Nat.succ n, seed, l =>
    if l.length = 0 then []
    else
      let i := seed % l.length
      l.getD i "" :: sampleAux n (seed / l.length) (l.eraseIdx i)

/-- Models `random.sample(AUTH_URLS, len(AUTH_URLS))`: a permutation of the input
determined by the oracle seed. -/
def sample (seed : Nat) (l : List String) : List String :=
  sampleAux l.length seed l

/-- Models `fetch_token(user)` minus the shared-list append: try all URLs in the
sampled random order, return the first truthy token, `none` if all fail. -/
def fetchToken (env : Env) (u : Cred) : Option String :=
  tryUrls env u (sample (env.seed u) AUTH_URLS)

/-- The guarded append in `fetch_token`: `if token not in shared_tokens:
shared_tokens.append(token)`; a failed fetch contributes nothing. -/
def addToken (acc : List String) : Option String → List String
  | some t => if t ∈ acc then acc else acc ++ [t]
  | none => acc

/-- The aggregation of all `fetch_token` threads into `shared_tokens`
(completion order modelled by credential order). -/
def runFetches (env : Env) (creds : List Cred) : List String :=
  creds.foldl (fun acc u => addToken acc (fetchToken env u)) []

/-- Observable outcome of `_refresh_tokens`: the new state, the number of
`_load_credentials` calls made and the number of `fetch_token` tasks run. -/
structure RefreshOut where
  state : TCState
  credLoads : Nat
  fetchCalls : Nat

/-- The `try` body of `_refresh_tokens`: load credentials, run the fetch
threads, then publish either the aggregated list or `[]` (`if tokens: ...
else: ...`).  `Env.critical` injects an unexpected orchestration exception,
raised before any cache write. -/
def refreshBody (env : Env) (st : TCState) (key : String) (now : Int) :
    Except Unit RefreshOut :=
  if env.critical then Except.error ()
  else
    let creds := loadCredentials env key
    let tokens := runFetches env creds
    if tokens = [] then Except.ok ⟨cacheSet st key [] now, 1, creds.length⟩
    else Except.ok ⟨cacheSet st key tokens now, 1, creds.length⟩

/-- The `except` handler of `_refresh_tokens`: `if server_key not in
self.cache: self.cache[server_key] = []`. -/
def refreshHandler (st : TCState) (key : String) (now : Int) : RefreshOut :=
  ⟨if cacheContains st key now then st else cacheSet st key [] now, 0, 0⟩

/-- Models `_refresh_tokens`: body with its catch-all handler; never raises. -/
def refreshTokens (env : Env) (st : TCState) (key : String) (now : Int) : RefreshOut :=
  match refreshBody env st key now with
  | Except.ok r => r
  | Except.error _ => refreshHandler st key now

/-- Models `refresh_needed` as computed in `get_tokens`. -/
def refreshNeeded (st : TCState) (key : String) (now : Int) : Bool :=
  !cacheContains st key now ||
    (st.lastRefresh key).isNone ||
    decide (now - ((st.lastRefresh key).getD 0) > TOKEN_REFRESH_THRESHOLD)

/-- Observable outcome of one `get_tokens` call. -/
structure GetOut where
  tokens : List String
  state : TCState
  didRefresh : Bool
  credLoads : Nat
  fetchCalls : Nat

/-- Models `get_tokens(server_key)`: under the lock, compute `refresh_needed`;
if set, refresh synchronously and then unconditionally stamp
`last_refresh[server_key] = now`; finally return
`self.cache.get(server_key, [])`. -/
def getTokens (env : Env) (st : TCState) (key : String) (now : Int) : GetOut :=
  if refreshNeeded st key now then
    let r := refreshTokens env st key now
    let st1 := setLastRefresh r.state key now
    ⟨(cacheLookup st1 key now).getD [], st1, true, r.credLoads, r.fetchCalls⟩
  else
    ⟨(cacheLookup st key now).getD [], st, false, 0, 0⟩

/-- Exception-level semantics of `get_tokens`: an exception escaping
`_refresh_tokens` would propagate to the caller (`get_tokens` has no `try`),
so the refresh is run at the `Except` level and only its handler converts
failures back to normal results. -/
def getTokensE (env : Env) (st : TCState) (key : String) (now : Int) :
    Except Unit GetOut :=
  if refreshNeeded st key now then
    match refreshBody env st key now with
    | Except.error _ =>
      let r := refreshHandler st key now
      let st1 := setLastRefresh r.state key now
      Except.ok ⟨(cacheLookup st1 key now).getD [], st1, true, r.credLoads, r.fetchCalls⟩
    | Except.ok r =>
      let st1 := setLastRefresh r.state key now
      Except.ok ⟨(cacheLookup st1 key now).getD [], st1, true, r.credLoads, r.fetchCalls⟩
  else
    Except.ok ⟨(cacheLookup st key now).getD [], st, false, 0, 0⟩

/-! ### Helper lemmas -/

theorem perm_getD_cons_eraseIdx (l : List String) (i : Nat) (h : i < l.length) :
    (l.getD i "" :: l.eraseIdx i).Perm l := by
  rw [List.getD_eq_getElem l "" h]
  exact ((List.perm_cons_erase (l.getElem_mem h)).trans
    ((List.erase_getElem h).cons _)).symm

theorem sampleAux_perm :
    ∀ (n seed : Nat) (l : List String), l.length ≤ n → (sampleAux n seed l).Perm l
  | 0, _, l, h => by
    have : l = [] := List.eq_nil_of_length_eq_zero (Nat.le_zero.mp h)
    simp [this, sampleAux]
  | Nat.succ n, seed, l, h => by
    unfold sampleAux
    by_cases hl : l.length = 0
    · simp [hl, List.eq_nil_of_length_eq_zero hl]
    · have hpos : 0 < l.length := Nat.pos_of_ne_zero hl
      have hi : seed % l.length < l.length := Nat.mod_lt _ hpos
      have hlen : (l.eraseIdx (seed % l.length)).length ≤ n := by
        rw [List.length_eraseIdx]
        simp only [hi, if_true]
        omega
      simp only [hl, if_false]
      exact ((sampleAux_perm n (seed / l.length) _ hlen).cons _).trans
        (perm_getD_cons_eraseIdx l _ hi)

/-- The sampled endpoint order is a permutation of the endpoint set. -/
theorem sample_perm (seed : Nat) (l : List String) : (sample seed l).Perm l :=
  sampleAux_perm l.length seed l le_rfl

/-- The endpoint loop returns the first success in the given order. -/
theorem tryUrls_eq_findSome (env : Env) (u : Cred) :
    ∀ urls : List String, tryUrls env u urls = urls.findSome? (fetchSucc env u)
  | [] => rfl
  | url :: rest => by
    rw [List.findSome?_cons]
    show tryUrls env u (url :: rest) = _
    unfold tryUrls fetchSucc
    cases env.http u url with
    | raise => simpa using tryUrls_eq_findSome env u rest
    | resp status body =>
      by_cases hs : status = 200
      · subst hs
        cases body with
        | error e => simpa using tryUrls_eq_findSome env u rest
        | ok tok =>
          cases tok with
          | none => simpa using tryUrls_eq_findSome env u rest
          | some t =>
            by_cases ht : t = ""
            · simpa [ht] using tryUrls_eq_findSome env u rest
            · simp [ht]
      · simpa [hs] using tryUrls_eq_findSome env u rest

theorem addToken_nodup (acc : List String) (o : Option String) (h : acc.Nodup) :
    (addToken acc o).Nodup := by
  cases o with
  | none => exact h
  | some t =>
    unfold addToken
    by_cases ht : t ∈ acc
    · simpa [ht]
    · simp [ht, List.nodup_append, h, List.disjoint_singleton]

theorem foldl_addToken_nodup (env : Env) :
    ∀ (creds : List Cred) (acc : List String), acc.Nodup →
      (creds.foldl (fun a u => addToken a (fetchToken env u)) acc).Nodup
  | [], _, h => h
  | c :: cs, acc, h =>
    foldl_addToken_nodup env cs (addToken acc (fetchToken env c))
      (addToken_nodup acc (fetchToken env c) h)

/-- A refresh's aggregated token list never contains duplicates. -/
theorem runFetches_nodup (env : Env) (creds : List Cred) :
    (runFetches env creds).Nodup :=
  foldl_addToken_nodup env creds [] List.nodup_nil

theorem refreshTokens_not_critical (env : Env) (st : TCState) (key : String)
    (now : Int) (h : env.critical = false) :
    refreshTokens env st key now =
      ⟨cacheSet st key (runFetches env (loadCredentials env key)) now, 1,
        (loadCredentials env key).length⟩ := by
  unfold refreshTokens refreshBody
  rw [h]
  simp only [Bool.false_eq_true, if_false]
  by_cases ht : runFetches env (loadCredentials env key) = []
  · simp [ht]
  · simp [ht]

theorem refreshTokens_critical (env : Env) (st : TCState) (key : String)
    (now : Int) (h : env.critical = true) :
    refreshTokens env st key now = refreshHandler st key now := by
  unfold refreshTokens refreshBody
  rw [h]
  simp

theorem getTokens_didRefresh (env : Env) (st : TCState) (key : String) (now : Int) :
    (getTokens env st key now).didRefresh = refreshNeeded st key now := by
  unfold getTokens
  by_cases h : refreshNeeded st key now <;> simp [h]

theorem getTokens_no_refresh (env : Env) (st : TCState) (key : String) (now : Int)
    (h : refreshNeeded st key now = false) :
    getTokens env st key now = ⟨(cacheLookup st key now).getD [], st, false, 0, 0⟩ := by
  unfold getTokens
  rw [h]
  simp

theorem getTokens_refresh (env : Env) (st : TCState) (key : String) (now : Int)
    (h : refreshNeeded st key now = true) :
    getTokens env st key now =
      ⟨(cacheLookup (setLastRefresh (refreshTokens env st key now).state key now) key now).getD [],
        setLastRefresh (refreshTokens env st key now).state key now, true,
        (refreshTokens env st key now).credLoads,
        (refreshTokens env st key now).fetchCalls⟩ := by
  unfold getTokens
  rw [h]
  simp

theorem cacheSet_lookup_self (st : TCState) (key : String) (v : List String)
    (now t : Int) (h : t - now < CACHE_DURATION) :
    cacheLookup (cacheSet st key v now) key t = some v := by
  unfold cacheLookup cacheSet
  simp [h]

theorem setLastRefresh_cache (st : TCState) (key : String) (now : Int) :
    (setLastRefresh st key now).cache = st.cache := rfl

theorem setLastRefresh_self (st : TCState) (key : String) (now : Int) :
    (setLastRefresh st key now).lastRefresh key = some now := by
  unfold setLastRefresh
  simp

theorem refreshNeeded_false_of_recent (st : TCState) (key : String) (now2 t : Int)
    (hl : st.lastRefresh key = some t) (hc : cacheContains st key now2 = true)
    (h1 : now2 - t ≤ TOKEN_REFRESH_THRESHOLD) :
    refreshNeeded st key now2 = false := by
  unfold refreshNeeded
  rw [hc, hl]
  simp only [Bool.not_true, Bool.false_or, Option.isNone_some, Option.getD_some]
  simpa using h1

theorem refreshNeeded_iff (st : TCState) (key : String) (now : Int) :
    refreshNeeded st key now = true ↔
      (cacheLookup st key now = none ∨ st.lastRefresh key = none ∨
        ∃ t, st.lastRefresh key = some t ∧ now - t > TOKEN_REFRESH_THRESHOLD) := by
  unfold refreshNeeded cacheContains
  cases hl : st.lastRefresh key with
  | none => simp [hl]
  | some t => simp [hl, Option.not_isSome_iff_eq_none]

/-- Invariant: every entry physically present in the cache map has a
duplicate-free token list. -/
def cacheNodupInv (st : TCState) : Prop :=
  ∀ k v t, st.cache k = some (v, t) → v.Nodup

theorem cacheNodupInv_set (st : TCState) (key : String) (v : List String)
    (now : Int) (h : cacheNodupInv st) (hv : v.Nodup) :
    cacheNodupInv (cacheSet st key v now) := by
  intro k w t hw
  unfold cacheSet at hw
  simp only at hw
  by_cases hk : k = key
  · rw [if_pos hk] at hw
    simp only [Option.some.injEq, Prod.mk.injEq] at hw
    rw [← hw.1]
    exact hv
  · rw [if_neg hk] at hw
    exact h k w t hw

theorem cacheNodupInv_refresh (env : Env) (st : TCState) (key : String)
    (now : Int) (h : cacheNodupInv st) :
    cacheNodupInv (refreshTokens env st key now).state := by
  by_cases hc : env.critical = true
  · rw [refreshTokens_critical env st key now hc]
    unfold refreshHandler
    by_cases hcc : cacheContains st key now = true
    · simpa [hcc]
    · simp only [hcc, if_false]
      exact cacheNodupInv_set st key [] now h List.nodup_nil
  · rw [refreshTokens_not_critical env st key now (Bool.not_eq_true _ ▸ hc)]
    exact cacheNodupInv_set st key _ now h (runFetches_nodup env _)

/-! ### The claims, formalized from the claim text (for refinement/negation) -/

/-- Modelled from the claim text of C8: the fetch returns the first token
obtained from an HTTP 200 response whose token field is present, with no
truthiness test on the token. -/
def fetchSuccClaim (env : Env) (u : Cred) (url : String) : Option String :=
  match env.http u url with
  | HttpOutcome.raise => none
  | HttpOutcome.resp status body =>
    if status = 200 then
      match body with
      | Except.ok (some t) => some t
      | Except.ok none => none
      | Except.error _ => none
    else none

/-- Modelled from the claim text of C8: full fetch under the claim's
first-200-with-token-field rule. -/
def fetchTokenClaim (env : Env) (u : Cred) : Option String :=
  (sample (env.seed u) AUTH_URLS).findSome? (fetchSuccClaim env u)

/-- Modelled from the claim text of C10: the env var is consulted whenever it
is set (parse failure yielding `[]`), and the file is consulted only when the
variable is unset. -/
def loadCredentialsClaim (env : Env) (key : String) : List Cred :=
  match env.envVar (key ++ "_CONFIG") with
  | some s =>
    match env.parse s with
    | Except.ok l => l
    | Except.error _ => []
  | none =>
    match fileLoad env key with
    | Except.ok l => l
    | Except.error _ => []

/-- Modelled from the amended claim text of C10: the env var is consulted
first; if it is unset or empty, the file is consulted; a parse failure of the
consulted source, or an absent file, yields `[]`. -/
def loadCredentialsSpec (env : Env) (key : String) : List Cred :=
  match env.envVar (key ++ "_CONFIG") with
  | some s =>
    if s = "" then
      match fileLoad env key with
      | Except.ok l => l
      | Except.error _ => []
    else
      match env.parse s with
      | Except.ok l => l
      | Except.error _ => []
  | none =>
    match fileLoad env key with
    | Except.ok l => l
    | Except.error _ => []

/-! ### Concrete fixtures -/

/-- An environment with every collaborator failing or empty. -/
def env0 : Env where
  envVar := fun _ => none
  parse := fun _ => Except.error ()
  fileExists := fun _ => false
  fileJson := fun _ => Except.error ()
  http := fun _ _ => HttpOutcome.raise
  seed := fun _ => 0
  critical := false

/-- An environment injecting an unexpected orchestration failure. -/
def envCrit : Env := { env0 with critical := true }

/-- The empty cache state. -/
def st0 : TCState := ⟨fun _ => none, fun _ => none⟩

/-- A state holding one entry for key `X`, inserted and stamped at time 0. -/
def stOne : TCState :=
  ⟨fun k => if k = "X" then some (["t0"], 0) else none,
   fun k => if k = "X" then some 0 else none⟩

/-- A concrete credential. -/
def credX : Cred := ⟨"u1", "p1"⟩

/-- A concrete credential for the config fixtures. -/
def credY : Cred := ⟨"u2", "p2"⟩

/-- An environment where the first endpoint answers 200 with an empty-string
token field and the second answers 200 with token `T1`. -/
def envTok : Env :=
  { env0 with
    http := fun _ url =>
      if url = "https://jwtxthug.up.railway.app/token" then
        HttpOutcome.resp 200 (Except.ok (some ""))
      else if url = "https://jwt-aditya.vercel.app/token" then
        HttpOutcome.resp 200 (Except.ok (some "T1"))
      else HttpOutcome.raise }

/-- An environment where the env var for key `X` is set to the empty string
while a parseable config file for `X` exists. -/
def envCfg : Env :=
  { env0 with
    envVar := fun n => if n = "X_CONFIG" then some "" else none,
    fileExists := fun p => p == configPath "X",
    fileJson := fun p => if p = configPath "X" then Except.ok [credY] else Except.error () }

theorem cacheLookup_setLastRefresh (st : TCState) (k key : String) (n t : Int) :
    cacheLookup (setLastRefresh st k n) key t = cacheLookup st key t := rfl

theorem getTokens_state_success (env : Env) (st : TCState) (key : String)
    (now : Int) (h : refreshNeeded st key now = true) (hc : env.critical = false) :
    getTokens env st key now =
      ⟨runFetches env (loadCredentials env key),
        setLastRefresh (cacheSet st key (runFetches env (loadCredentials env key)) now) key now,
        true, 1, (loadCredentials env key).length⟩ := by
  rw [getTokens_refresh env st key now h, refreshTokens_not_critical env st key now hc]
  have hlook : cacheLookup
      (setLastRefresh (cacheSet st key (runFetches env (loadCredentials env key)) now) key now)
      key now = some (runFetches env (loadCredentials env key)) := by
    rw [cacheLookup_setLastRefresh]
    exact cacheSet_lookup_self st key _ now now (by unfold CACHE_DURATION; omega)
  simp [hlook]

/-! ### Claims -/

/-- C1: `get_tokens` performs a synchronous refresh if and only if the cache
entry for the key is absent, there is no record of a prior refresh, or the
elapsed time since the last refresh exceeds `TOKEN_REFRESH_THRESHOLD`; and
after a completed refresh at time `now`, any call within the threshold
returns the cached list without triggering a new refresh. -/
theorem claim_C1 (env : Env) (st : TCState) (key : String) (now : Int) :
    ((getTokens env st key now).didRefresh = true ↔
      (cacheLookup st key now = none ∨ st.lastRefresh key = none ∨
        ∃ t, st.lastRefresh key = some t ∧ now - t > TOKEN_REFRESH_THRESHOLD)) ∧
    (refreshNeeded st key now = true → env.critical = false →
      ∀ (env2 : Env) (now2 : Int), now ≤ now2 → now2 - now ≤ TOKEN_REFRESH_THRESHOLD →
        (getTokens env2 (getTokens env st key now).state key now2).didRefresh = false ∧
        (getTokens env2 (getTokens env st key now).state key now2).tokens =
          (getTokens env st key now).tokens) := by
  constructor
  · rw [getTokens_didRefresh]
    exact refreshNeeded_iff st key now
  · intro h hc env2 now2 h0 h1
    have hgt := getTokens_state_success env st key now h hc
    rw [hgt]
    dsimp only
    set toks := runFetches env (loadCredentials env key) with htoks
    set st1 := setLastRefresh (cacheSet st key toks now) key now with hst1
    have hlr : st1.lastRefresh key = some now := setLastRefresh_self _ _ _
    have hlook : cacheLookup st1 key now2 = some toks := by
      rw [hst1, cacheLookup_setLastRefresh]
      exact cacheSet_lookup_self st key toks now now2
        (by unfold TOKEN_REFRESH_THRESHOLD at h1; unfold CACHE_DURATION; omega)
    have hcc : cacheContains st1 key now2 = true := by
      unfold cacheContains
      rw [hlook]
      rfl
    have hrn := refreshNeeded_false_of_recent st1 key now2 now hlr hcc h1
    rw [getTokens_no_refresh env2 st1 key now2 hrn]
    simp [hlook]

theorem claim_C1_witness :
    refreshNeeded st0 "K" 0 = true ∧ env0.critical = false ∧
      (getTokens env0 (getTokens env0 st0 "K" 0).state "K" 0).didRefresh = false :=
  ⟨by decide, rfl,
    ((claim_C1 env0 st0 "K" 0).2 (by decide) rfl env0 0 (by decide) (by decide)).1⟩

/-- C2: for every environment (any combination of credential-load failures,
endpoint failures, fetch failures and orchestration errors), the
exception-level semantics of `get_tokens` never surfaces an error: it always
returns `Except.ok` with the list the total function computes. -/
theorem claim_C2 (env : Env) (st : TCState) (key : String) (now : Int) :
    getTokensE env st key now = Except.ok (getTokens env st key now) := by
  unfold getTokensE getTokens refreshTokens
  by_cases h : refreshNeeded st key now
  · simp only [h, if_true]
    cases hb : refreshBody env st key now with
    | ok r => simp
    | error e => simp
  · simp [h]

/-- C3: the aggregated result of any refresh contains no duplicate token
string, and `get_tokens` preserves the invariant that every published cache
entry is duplicate-free. -/
theorem claim_C3 (env : Env) (st : TCState) (key : String) (now : Int)
    (creds : List Cred) :
    (runFetches env creds).Nodup ∧
    (cacheNodupInv st → cacheNodupInv (getTokens env st key now).state) := by
  refine ⟨runFetches_nodup env creds, fun h => ?_⟩
  unfold getTokens
  by_cases hr : refreshNeeded st key now
  · simp only [hr, if_true]
    intro k v t hk
    exact cacheNodupInv_refresh env st key now h k v t hk
  · simpa [hr] using h

theorem claim_C3_witness :
    cacheNodupInv st0 ∧ cacheNodupInv (getTokens env0 st0 "K" 0).state := by
  have h : cacheNodupInv st0 := fun k v t hk => Option.noConfusion hk
  exact ⟨h, (claim_C3 env0 st0 "K" 0 []).2 h⟩

/-- C5: a refresh that yields zero tokens explicitly publishes the empty list
(stamped at the refresh time), `get_tokens` returns `[]`, and any call within
the threshold returns `[]` without refreshing and without invoking the
credential source again. -/
theorem claim_C5 (env : Env) (st : TCState) (key : String) (now : Int)
    (h : refreshNeeded st key now = true) (hc : env.critical = false)
    (hz : runFetches env (loadCredentials env key) = []) :
    (getTokens env st key now).state.cache key = some ([], now) ∧
    (getTokens env st key now).tokens = [] ∧
    ∀ (env2 : Env) (now2 : Int), now ≤ now2 → now2 - now ≤ TOKEN_REFRESH_THRESHOLD →
      (getTokens env2 (getTokens env st key now).state key now2).tokens = [] ∧
      (getTokens env2 (getTokens env st key now).state key now2).didRefresh = false ∧
      (getTokens env2 (getTokens env st key now).state key now2).credLoads = 0 := by
  have hgt := getTokens_state_success env st key now h hc
  rw [hz] at hgt
  rw [hgt]
  dsimp only
  refine ⟨?_, rfl, ?_⟩
  · show (cacheSet st key [] now).cache key = some ([], now)
    unfold cacheSet
    simp
  · intro env2 now2 h0 h1
    set st1 := setLastRefresh (cacheSet st key [] now) key now with hst1
    have hlr : st1.lastRefresh key = some now := setLastRefresh_self _ _ _
    have hlook : cacheLookup st1 key now2 = some [] := by
      rw [hst1, cacheLookup_setLastRefresh]
      exact cacheSet_lookup_self st key [] now now2
        (by unfold TOKEN_REFRESH_THRESHOLD at h1; unfold CACHE_DURATION; omega)
    have hcc : cacheContains st1 key now2 = true := by
      unfold cacheContains
      rw [hlook]
      rfl
    have hrn := refreshNeeded_false_of_recent st1 key now2 now hlr hcc h1
    rw [getTokens_no_refresh env2 st1 key now2 hrn]
    simp [hlook]

theorem claim_C5_witness :
    refreshNeeded st0 "K" 0 = true ∧ env0.critical = false ∧
    runFetches env0 (loadCredentials env0 "K") = [] ∧
    (getTokens env0 st0 "K" 0).state.cache "K" = some ([], 0) :=
  ⟨by decide, rfl, rfl, (claim_C5 env0 st0 "K" 0 (by decide) rfl rfl).1⟩

/-- C6: an unexpected orchestration error is caught inside the refresh: the
cache entry is set to `[]` when no (unexpired) entry existed, left untouched
when one existed, and no error propagates to the `get_tokens` caller. -/
theorem claim_C6 (env : Env) (st : TCState) (key : String) (now : Int)
    (h : refreshNeeded st key now = true) (hc : env.critical = true) :
    (cacheContains st key now = false →
      (getTokens env st key now).state.cache key = some ([], now)) ∧
    (cacheContains st key now = true →
      (getTokens env st key now).state.cache key = st.cache key) ∧
    getTokensE env st key now = Except.ok (getTokens env st key now) := by
  have hst : (getTokens env st key now).state =
      setLastRefresh (refreshHandler st key now).state key now := by
    rw [getTokens_refresh env st key now h, refreshTokens_critical env st key now hc]
  refine ⟨?_, ?_, ?_⟩
  · intro hcc
    rw [hst]
    show (refreshHandler st key now).state.cache key = some ([], now)
    unfold refreshHandler
    simp only [hcc, Bool.false_eq_true, if_false]
    show (cacheSet st key [] now).cache key = some ([], now)
    unfold cacheSet
    simp
  · intro hcc
    rw [hst]
    show (refreshHandler st key now).state.cache key = st.cache key
    unfold refreshHandler
    simp [hcc]
  · unfold getTokensE getTokens refreshTokens
    by_cases h2 : refreshNeeded st key now
    · simp only [h2, if_true]
      cases hb : refreshBody env st key now with
      | ok r => simp
      | error e => simp
    · simp [h2]

theorem claim_C6_witness :
    refreshNeeded st0 "K" 0 = true ∧ envCrit.critical = true ∧
    cacheContains st0 "K" 0 = false ∧
    (getTokens envCrit st0 "K" 0).state.cache "K" = some ([], 0) :=
  ⟨by decide, rfl, by decide, (claim_C6 envCrit st0 "K" 0 (by decide) rfl).1 (by decide)⟩

/-- C7 counterexample: with an entry inserted at time 0, a critically failing
refresh attempt at time 22000 leaves the old entry in place; at time 25200 —
only 3200 seconds after that attempt, well within the threshold — the old
entry has passed its TTL, so `get_tokens` triggers another refresh, refuting
"a failing refresh is not retried until the refresh threshold elapses
again". -/
theorem claim_C7_counterexample :
    envCrit.critical = true ∧
    refreshNeeded stOne "X" 22000 = true ∧
    (getTokens envCrit stOne "X" 22000).didRefresh = true ∧
    (getTokens envCrit stOne "X" 22000).state.lastRefresh "X" = some 22000 ∧
    ((25200 : Int) - 22000 ≤ TOKEN_REFRESH_THRESHOLD) ∧
    (getTokens envCrit (getTokens envCrit stOne "X" 22000).state "X" 25200).didRefresh
      = true :=
  ⟨rfl, by decide, by decide, by decide, by decide, by decide⟩

/-- C7 (amended): after every attempted refresh — success, zero tokens or
critical error — `get_tokens` unconditionally stamps the key's last-refresh
timestamp with the current time, and no refresh is retried within the
threshold as long as the key's cache entry remains unexpired. -/
theorem claim_C7 (env : Env) (st : TCState) (key : String) (now : Int)
    (h : refreshNeeded st key now = true) :
    (getTokens env st key now).state.lastRefresh key = some now ∧
    ∀ (env2 : Env) (now2 : Int), now2 - now ≤ TOKEN_REFRESH_THRESHOLD →
      cacheContains (getTokens env st key now).state key now2 = true →
      (getTokens env2 (getTokens env st key now).state key now2).didRefresh = false := by
  have hst : (getTokens env st key now).state =
      setLastRefresh (refreshTokens env st key now).state key now := by
    rw [getTokens_refresh env st key now h]
  have hlr : (getTokens env st key now).state.lastRefresh key = some now := by
    rw [hst]
    exact setLastRefresh_self _ _ _
  refine ⟨hlr, fun env2 now2 h1 hcc => ?_⟩
  have hrn := refreshNeeded_false_of_recent _ key now2 now hlr hcc h1
  rw [getTokens_didRefresh, hrn]

theorem claim_C7_witness :
    refreshNeeded st0 "K" 0 = true ∧
    cacheContains (getTokens env0 st0 "K" 0).state "K" 0 = true ∧
    (getTokens env0 (getTokens env0 st0 "K" 0).state "K" 0).didRefresh = false :=
  ⟨by decide, by decide,
    (claim_C7 env0 st0 "K" 0 (by decide)).2 env0 0 (by decide) (by decide)⟩

/-- C8 counterexample: the first endpoint in the sampled order answers HTTP
200 with a token field present but equal to `""`; the claim's rule ("first
token from a 200 response with a token field") would return `""`, but the
code's truthiness test skips it and returns the second endpoint's token. -/
theorem claim_C8_counterexample :
    fetchToken envTok credX = some "T1" ∧
    fetchTokenClaim envTok credX = some "" ∧
    fetchToken envTok credX ≠ fetchTokenClaim envTok credX :=
  ⟨by decide, by decide, by decide⟩

/-- C8 (amended): each per-credential fetch obtains a fresh permutation
covering the full endpoint set (each endpoint exactly once), tries endpoints
in that order and returns the first token obtained from an HTTP 200 response
with a parseable, non-empty token field (`List.findSome?` = first success
wins, `none` when all endpoints are exhausted), and an exhausted fetch
contributes nothing to the batch. -/
theorem claim_C8 (env : Env) (u : Cred) :
    (sample (env.seed u) AUTH_URLS).Perm AUTH_URLS ∧
    fetchToken env u = (sample (env.seed u) AUTH_URLS).findSome? (fetchSucc env u) ∧
    ∀ acc : List String, addToken acc none = acc :=
  ⟨sample_perm _ _, tryUrls_eq_findSome env u _, fun _ => rfl⟩

/-- C9: when no refresh is due, two successive `get_tokens` calls return the
same list, leave the state untouched, perform no refresh and make zero fetch
calls, for any collaborator environments. -/
theorem claim_C9 (env1 env2 : Env) (st : TCState) (key : String) (now : Int)
    (h : refreshNeeded st key now = false) :
    (getTokens env1 st key now).state = st ∧
    (getTokens env2 (getTokens env1 st key now).state key now).state = st ∧
    (getTokens env2 (getTokens env1 st key now).state key now).tokens =
      (getTokens env1 st key now).tokens ∧
    (getTokens env1 st key now).didRefresh = false ∧
    (getTokens env2 (getTokens env1 st key now).state key now).didRefresh = false ∧
    (getTokens env1 st key now).fetchCalls = 0 ∧
    (getTokens env2 (getTokens env1 st key now).state key now).fetchCalls = 0 := by
  rw [getTokens_no_refresh env1 st key now h]
  dsimp only
  rw [getTokens_no_refresh env2 st key now h]
  exact ⟨rfl, rfl, rfl, rfl, rfl, rfl, rfl⟩

theorem claim_C9_witness :
    refreshNeeded stOne "X" 100 = false ∧
    (getTokens env0 (getTokens env0 stOne "X" 100).state "X" 100).tokens =
      (getTokens env0 stOne "X" 100).tokens :=
  ⟨by decide, (claim_C9 env0 env0 stOne "X" 100 (by decide)).2.2.1⟩

/-- C10 counterexample: with the env var `X_CONFIG` set to the empty string
and a parseable config file present, `_load_credentials` falls back to the
file (Python truthiness), while the claim's rule ("only if that variable is
unset") would consult the variable, fail to parse it, and return `[]`. -/
theorem claim_C10_counterexample :
    envCfg.envVar "X_CONFIG" = some "" ∧
    loadCredentials envCfg "X" = [credY] ∧
    loadCredentialsClaim envCfg "X" = [] ∧
    loadCredentials envCfg "X" ≠ loadCredentialsClaim envCfg "X" :=
  ⟨rfl, by decide, by decide, by decide⟩

/-- C10 (amended): credential loading consults the env var
`<key>_CONFIG` first and falls back to `config/<lowercased key>_config.json`
exactly when that variable is unset or empty; a missing file or a parse
failure of the consulted source yields `[]`, and no failure escapes. -/
theorem claim_C10 (env : Env) (key : String) :
    loadCredentials env key = loadCredentialsSpec env key := by
  unfold loadCredentials loadCredentialsSpec loadCredentialsBody
  cases env.envVar (key ++ "_CONFIG") with
  | none => cases hf : fileLoad env key <;> simp [hf]
  | some s =>
    by_cases hs : s = ""
    · simp [hs]
    · cases hp : env.parse s <;> simp [hs, hp]
